import Mathlib

/-!
Verification of the megaproblem-editor document pipeline
(`src/utils/problemParser.ts`): the markup parser `parseProblem`, the
validator `validateProblem`, the pretty-printer `formatXmlPreserveInline`
and the derived query `countQuestions`, over a shallow embedding of the
XML DOM tree the code manipulates.

The DOM tree (element / text / comment nodes) and the browser-provided
`DOMParser` string parser are modelled explicitly; all functions of the
repository are translated statement by statement from the TypeScript
source.
-/

namespace MP

/-! ## Character and string helpers (kernel-friendly, over `String.data`) -/

def isWsChar (c : Char) : Bool :=
  c = ' ' || c = '\t' || c = '\n' || c = '\r'

/-- Trim whitespace at both ends, as JavaScript `String.prototype.trim`. -/
def strTrim (s : String) : String :=
  ⟨((s.data.dropWhile isWsChar).reverse.dropWhile isWsChar).reverse⟩

/-- `s.repeat(n)` of JavaScript. -/
def strRepeat (s : String) : Nat → String
  | 0 => ""
  | n + 1 => s ++ strRepeat s n

def lcChar (c : Char) : Char :=
  if 'A' ≤ c ∧ c ≤ 'Z' then Char.ofNat (c.toNat + 32) else c

/-- ASCII lower-casing, as used for `tagName.toLowerCase()`. -/
def strToLower (s : String) : String :=
  ⟨s.data.map lcChar⟩

/-! ## The DOM tree -/

/-- A markup tree node: element (tag, ordered attributes, ordered children),
text, or comment — the three node kinds the pipeline distinguishes. -/
inductive XNode where
  | element (tag : String) (attrs : List (String × String)) (children : List XNode)
  | text (s : String)
  | comment (s : String)

def XNode.isElem : XNode → Bool
  | .element _ _ _ => true
  | _ => false

def tagOf : XNode → String
  | .element t _ _ => t
  | _ => ""

def attrsOf : XNode → List (String × String)
  | .element _ a _ => a
  | _ => []

def childrenOf : XNode → List XNode
  | .element _ _ cs => cs
  | _ => []

/-- `el.getAttribute(name)`: first attribute of that name, else null. -/
def getAttr (n : XNode) (name : String) : Option String :=
  ((attrsOf n).find? (fun a => a.1 == name)).map (fun a => a.2)

/-- `el.children`: element children only, in order. -/
def elementChildren (n : XNode) : List XNode :=
  (childrenOf n).filter XNode.isElem

mutual
def textContent : XNode → String
  | .text s => s
  | .comment _ => ""
  | .element _ _ cs => textContentL cs
def textContentL : List XNode → String
  | [] => ""
  | c :: cs => textContent c ++ textContentL cs
end

mutual
def preElems : XNode → List XNode
  | .element t a cs => .element t a cs :: preElemsL cs
  | _ => []
def preElemsL : List XNode → List XNode
  | [] => []
  | c :: cs => preElems c ++ preElemsL cs
end

/-- Strict descendant elements in document (pre-)order. -/
def descendantElems (n : XNode) : List XNode :=
  preElemsL (childrenOf n)

/-- `document.querySelector(tag)`: includes the root element itself. -/
def docQuerySelectorTag (root : XNode) (t : String) : Option XNode :=
  (preElems root).find? (fun e => tagOf e == t)

/-- `el.querySelector(tag)`: first strict descendant with that tag. -/
def elQuerySelectorTag (e : XNode) (t : String) : Option XNode :=
  (descendantElems e).find? (fun x => tagOf x == t)

/-- `el.querySelectorAll(tag)`: all strict descendants with that tag. -/
def elQuerySelectorAllTag (e : XNode) (t : String) : List XNode :=
  (descendantElems e).filter (fun x => tagOf x == t)

def splitWsAux : List Char → List Char → List String
  | [], acc => if acc.isEmpty then [] else [⟨acc.reverse⟩]
  | c :: r, acc =>
    if isWsChar c then
      (if acc.isEmpty then splitWsAux r [] else ⟨acc.reverse⟩ :: splitWsAux r [])
    else splitWsAux r (c :: acc)

/-- Whether an element's `class` attribute contains the given class token. -/
def hasClassToken (n : XNode) (cls : String) : Bool :=
  match getAttr n "class" with
  | none => false
  | some v => (splitWsAux v.data []).contains cls

/-- `el.querySelector('.cls')`: first strict descendant carrying the class. -/
def elQuerySelectorClass (e : XNode) (cls : String) : Option XNode :=
  (descendantElems e).find? (fun x => hasClassToken x cls)

/-! ## XML serialization (`innerHTML` of an XML document) -/

def escTextL : List Char → List Char
  | [] => []
  | c :: r =>
    (if c = '&' then "&amp;".data
     else if c = '<' then "&lt;".data
     else if c = '>' then "&gt;".data
     else [c]) ++ escTextL r

def escText (s : String) : String := ⟨escTextL s.data⟩

def escAttrL : List Char → List Char
  | [] => []
  | c :: r =>
    (if c = '&' then "&amp;".data
     else if c = '<' then "&lt;".data
     else if c = '>' then "&gt;".data
     else if c = '\x22' then "&quot;".data
     else [c]) ++ escAttrL r

def escAttr (s : String) : String := ⟨escAttrL s.data⟩

def serialAttrs (attrs : List (String × String)) : String :=
  attrs.foldl (fun acc a => acc ++ " " ++ a.1 ++ "=\x22" ++ escAttr a.2 ++ "\x22") ""

mutual
def serializeNode : XNode → String
  | .text s => escText s
  | .comment s => "<!--" ++ s ++ "-->"
  | .element t a cs =>
    if cs.isEmpty then "<" ++ t ++ serialAttrs a ++ "/>"
    else "<" ++ t ++ serialAttrs a ++ ">" ++ serializeL cs ++ "</" ++ t ++ ">"
def serializeL : List XNode → String
  | [] => ""
  | c :: cs => serializeNode c ++ serializeL cs
end

/-- `el.innerHTML`: serialization of the element's children. -/
def innerHTML (n : XNode) : String :=
  serializeL (childrenOf n)

/-! ## JavaScript numbers and `parseInt` -/

/-- The values `parseInt(s, 10)` can produce: an integer or `NaN`. -/
inductive JsNum where
  | nan
  | int (n : Int)
deriving DecidableEq

def digitsToNat : List Char → Nat → Nat
  | [], acc => acc
  | c :: r, acc => digitsToNat r (acc * 10 + (c.toNat - 48))

def parseIntDigits (l : List Char) (sign : Int) : JsNum :=
  let ds := l.takeWhile Char.isDigit
  if ds.isEmpty then .nan
  else .int (sign * Int.ofNat (digitsToNat ds 0))

/-- JavaScript `parseInt(s, 10)`: optional leading whitespace and sign,
then the longest digit prefix; `NaN` when there is no digit. -/
def parseIntB10 (s : String) : JsNum :=
  match s.data.dropWhile isWsChar with
  | '+' :: r => parseIntDigits r 1
  | '-' :: r => parseIntDigits r (-1)
  | r => parseIntDigits r 1

/-! ## Data model (`src/types/problem.ts`) -/

structure ProblemMetadata where
  displayName : String
  maxAttempts : Option JsNum
  markdown : Option String
deriving DecidableEq

structure Choice where
  text : String
  correct : Bool
deriving DecidableEq

inductive Question where
  | multiplechoice (label : String) (choices : List Choice) (shuffle : Bool)
  | numerical (label : String) (answer : String) (tolerance : String)
  | string (label : String) (answer : String)
deriving DecidableEq

structure Solution where
  explanation : String
  htmlContent : String
deriving DecidableEq

inductive ProblemBlock where
  | questionBlock (question : Question) (solution : Option Solution)
  | htmlBlock (content : String)
deriving DecidableEq

structure ParsedProblem where
  metadata : ProblemMetadata
  introHtml : String
  blocks : List ProblemBlock
deriving DecidableEq

inductive VKind where
  | error
  | warning
deriving DecidableEq

structure ValidationError where
  type : VKind
  message : String
  questionIndex : Option Nat
deriving DecidableEq

/-! ## The parser functions (`src/utils/problemParser.ts`) -/

/-- `parseMetadata`: display name via `|| 'Untitled Problem'` (empty string
is falsy), `max_attempts` via `getAttribute(...) ? parseInt(...) : null`,
`markdown` passed through. -/
def parseMetadata (problemEl : XNode) : ProblemMetadata :=
  { displayName :=
      match getAttr problemEl "display_name" with
      | some v => if v = "" then "Untitled Problem" else v
      | none => "Untitled Problem"
    maxAttempts :=
      match getAttr problemEl "max_attempts" with
      | some v => if v = "" then none else some (parseIntB10 v)
      | none => none
    markdown := getAttr problemEl "markdown" }

/-- `el.querySelector('label')?.textContent?.trim() || ''`. -/
def labelOf (el : XNode) : String :=
  match elQuerySelectorTag el "label" with
  | some l => strTrim (textContent l)
  | none => ""

/-- `el.getAttribute('answer') || ''`. -/
def answerAttrOf (el : XNode) : String :=
  (getAttr el "answer").getD ""

/-- `parseMultipleChoice`. -/
def parseMultipleChoice (el : XNode) : Question :=
  let choicegroup := elQuerySelectorTag el "choicegroup"
  let shuffle := (choicegroup.bind (fun g => getAttr g "shuffle")) = some "true"
  let choices := (elQuerySelectorAllTag el "choice").map (fun choiceEl =>
    { text := strTrim (textContent choiceEl)
      correct := getAttr choiceEl "correct" = some "true" : Choice })
  .multiplechoice (labelOf el) choices shuffle

/-- The `paragraphs.forEach((p, index) => ...)` loop of `parseSolution`:
the first paragraph is skipped when its trimmed text is exactly
"Explanation"; every other paragraph contributes its trimmed text. -/
def solutionTexts : List XNode → List String
  | [] => []
  | p :: ps =>
    let rest := ps.map (fun q => strTrim (textContent q))
    if strTrim (textContent p) = "Explanation" then rest
    else strTrim (textContent p) :: rest

/-- JavaScript `texts.join('\n')`. -/
def joinNL : List String → String
  | [] => ""
  | [s] => s
  | s :: rest => s ++ "\n" ++ joinNL rest

/-- `parseSolution`. -/
def parseSolution (el : XNode) : Solution :=
  match elQuerySelectorClass el "detailed-solution" with
  | some detailedSolution =>
    { explanation := joinNL (solutionTexts (elQuerySelectorAllTag detailedSolution "p"))
      htmlContent := innerHTML detailedSolution }
  | none =>
    { explanation := strTrim (textContent el)
      htmlContent := innerHTML el }

/-- `parseHtmlBlock`. -/
def parseHtmlBlock (el : XNode) : ProblemBlock :=
  .htmlBlock (innerHTML el)

def lcTag (n : XNode) : String := strToLower (tagOf n)

/-- The child-processing loop of `parseProblem`: walks the root's element
children in order carrying `foundFirstQuestion`, accumulating `introHtml`
and the block list; a question looks ahead one sibling for a `solution`
and consumes it. -/
def walkChildren : List XNode → Bool → String × List ProblemBlock
  | [], _ => ("", [])
  | [child], found =>
    if lcTag child = "html" then
      let r := walkChildren [] found
      if found then (r.1, parseHtmlBlock child :: r.2)
      else (innerHTML child ++ r.1, r.2)
    else if lcTag child = "multiplechoiceresponse" then
      let r := walkChildren [] true
      (r.1, .questionBlock (parseMultipleChoice child) none :: r.2)
    else if lcTag child = "numericalresponse" then
      let r := walkChildren [] true
      (r.1, .questionBlock (.numerical (labelOf child) (answerAttrOf child) "") none :: r.2)
    else if lcTag child = "stringresponse" then
      let r := walkChildren [] true
      (r.1, .questionBlock (.string (labelOf child) (answerAttrOf child)) none :: r.2)
    else
      walkChildren [] found
  | child :: s :: rest', found =>
    if lcTag child = "html" then
      let r := walkChildren (s :: rest') found
      if found then (r.1, parseHtmlBlock child :: r.2)
      else (innerHTML child ++ r.1, r.2)
    else if lcTag child = "multiplechoiceresponse" then
      if lcTag s = "solution" then
        let r := walkChildren rest' true
        (r.1, .questionBlock (parseMultipleChoice child) (some (parseSolution s)) :: r.2)
      else
        let r := walkChildren (s :: rest') true
        (r.1, .questionBlock (parseMultipleChoice child) none :: r.2)
    else if lcTag child = "numericalresponse" then
      if lcTag s = "solution" then
        let r := walkChildren rest' true
        (r.1, .questionBlock (.numerical (labelOf child) (answerAttrOf child) "")
                (some (parseSolution s)) :: r.2)
      else
        let r := walkChildren (s :: rest') true
        (r.1, .questionBlock (.numerical (labelOf child) (answerAttrOf child) "") none :: r.2)
    else if lcTag child = "stringresponse" then
      if lcTag s = "solution" then
        let r := walkChildren rest' true
        (r.1, .questionBlock (.string (labelOf child) (answerAttrOf child))
                (some (parseSolution s)) :: r.2)
      else
        let r := walkChildren (s :: rest') true
        (r.1, .questionBlock (.string (labelOf child) (answerAttrOf child)) none :: r.2)
    else
      walkChildren (s :: rest') found

/-! ## Validation (`validateProblem`) -/

/-- The missing-explanation condition of the validation loop:
`!block.solution || !block.solution.explanation.trim() ||
block.solution.explanation === 'Add your explanation here'`. -/
def missingExplB : Option Solution → Bool
  | none => true
  | some s => (strTrim s.explanation == "") || (s.explanation == "Add your explanation here")

/-- The body of the per-question-block validation loop: the potential
no-correct-answer error, empty-choice warning and missing-explanation
warning, pushed in source order for the question with 1-based index
`questionIndex`. -/
def validateBlock (questionIndex : Nat) (q : Question) (sol : Option Solution) :
    List ValidationError :=
  (match q with
   | .multiplechoice _ choices _ =>
     (if choices.any (fun c => c.correct) then []
      else [{ type := .error
              message := "Question " ++ Nat.repr questionIndex ++ " has no correct answer"
              questionIndex := some questionIndex }])
     ++
     (if 0 < (choices.filter (fun c => strTrim c.text = "")).length then
        [{ type := .warning
           message := "Question " ++ Nat.repr questionIndex ++ " has empty choice(s)"
           questionIndex := some questionIndex }]
      else [])
   | _ => [])
  ++
  (if missingExplB sol then
     [{ type := .warning
        message := "Question " ++ Nat.repr questionIndex ++ " is missing an explanation"
        questionIndex := some questionIndex }]
   else [])

def validateBlocks : List ProblemBlock → Nat → List ValidationError
  | [], _ => []
  | .htmlBlock _ :: rest, qi => validateBlocks rest qi
  | .questionBlock q sol :: rest, qi =>
    validateBlock (qi + 1) q sol ++ validateBlocks rest (qi + 1)

/-- `validateProblem`. -/
def validateProblem (parsed : ParsedProblem) : List ValidationError :=
  validateBlocks parsed.blocks 0

/-- `countQuestions`. -/
def countQuestions (parsed : ParsedProblem) : Nat :=
  (parsed.blocks.filter (fun b =>
    match b with
    | .questionBlock _ _ => true
    | .htmlBlock _ => false)).length

/-! ## The pretty-printer (`formatXmlPreserveInline`) -/

/-- The fixed set of inline tags of the formatter. -/
def inlineElements : List String :=
  ["choice", "label", "p", "span", "a", "strong", "em", "code"]

mutual
/-- `formatNode` of `formatXmlPreserveInline`, with the captured `PADDING`
string passed explicitly. -/
def formatNode (padding : String) : XNode → Nat → String
  | .text s, _ => strTrim s
  | .comment s, indent => strRepeat padding indent ++ "<!--" ++ s ++ "-->"
  | .element tag attrs children, indent =>
    let attrsStr := attrs.foldl
      (fun acc a => acc ++ " " ++ a.1 ++ "=\x22" ++ a.2 ++ "\x22") ""
    let hasOnlyText := match children with
      | [.text _] => true
      | _ => false
    let isInline := inlineElements.contains (strToLower tag) || hasOnlyText
    if children.isEmpty then
      strRepeat padding indent ++ "<" ++ tag ++ attrsStr ++ "></" ++ tag ++ ">"
    else if isInline && hasOnlyText then
      strRepeat padding indent ++ "<" ++ tag ++ attrsStr ++ ">"
        ++ strTrim (textContentL children) ++ "</" ++ tag ++ ">"
    else
      let childContent := formatChildren padding children (indent + 1)
      let result := strRepeat padding indent ++ "<" ++ tag ++ attrsStr ++ ">"
      if children.any XNode.isElem then
        result ++ childContent ++ "\n" ++ strRepeat padding indent ++ "</" ++ tag ++ ">"
      else
        result ++ strTrim (textContentL children) ++ "</" ++ tag ++ ">"
/-- The child loop of `formatNode`: each non-empty formatted child is
appended after a newline. -/
def formatChildren (padding : String) (ns : List XNode) (indent : Nat) : String :=
  match ns with
  | [] => ""
  | c :: rest =>
    let formatted := formatNode padding c indent
    (if formatted = "" then "" else "\n" ++ formatted) ++ formatChildren padding rest indent
end

/-! ## The modelled `DOMParser` (string to tree)

The browser's `DOMParser` is not part of the repository; it is modelled
from the spec: "Parse raw text into a generic markup tree" whose nodes are
"element/text/comment node variants with ordered children and ordered
attributes", reporting any well-formedness violation as an error carrying
a diagnostic.  The model is a strict recursive-descent XML reader with the
five predefined entities. -/

def isNameChar (c : Char) : Bool :=
  c.isAlphanum || c = '-' || c = '_' || c = '.' || c = ':'

/-- Decode one entity reference after a `&`. -/
def readEntity : List Char → Option (Char × List Char)
  | 'a' :: 'm' :: 'p' :: ';' :: r => some ('&', r)
  | 'l' :: 't' :: ';' :: r => some ('<', r)
  | 'g' :: 't' :: ';' :: r => some ('>', r)
  | 'q' :: 'u' :: 'o' :: 't' :: ';' :: r => some ('\x22', r)
  | 'a' :: 'p' :: 'o' :: 's' :: ';' :: r => some ('\x27', r)
  | _ => none

/-- Scan a comment body up to `-->`; `--` inside a comment is not
well-formed. -/
def readComment : Nat → List Char → List Char → Except String (String × List Char)
  | 0, _, _ => .error "comment not terminated"
  | _ + 1, '-' :: '-' :: '>' :: r, acc => .ok (⟨acc.reverse⟩, r)
  | _ + 1, '-' :: '-' :: _, _ => .error "invalid comment"
  | fuel + 1, c :: r, acc => readComment fuel r (c :: acc)
  | _ + 1, [], _ => .error "comment not terminated"

/-- Read a (tag or attribute) name. -/
def readName (cs : List Char) : Option (String × List Char) :=
  let nm := cs.takeWhile isNameChar
  if nm.isEmpty then none else some (⟨nm⟩, cs.drop nm.length)

/-- Read a quoted attribute value, decoding entities. -/
def readAttrValue : Nat → Char → List Char → List Char → Except String (String × List Char)
  | 0, _, _, _ => .error "attribute value not terminated"
  | fuel + 1, quote, c :: r, acc =>
    if c = quote then .ok (⟨acc.reverse⟩, r)
    else if c = '<' then .error "invalid character in attribute value"
    else if c = '&' then
      match readEntity r with
      | some (d, r') => readAttrValue fuel quote r' (d :: acc)
      | none => .error "invalid entity reference"
    else readAttrValue fuel quote r (c :: acc)
  | _ + 1, _, [], _ => .error "attribute value not terminated"

/-- Read the attribute list of an open tag, stopping before `>` or `/`. -/
def readAttrs : Nat → List Char → List (String × String) →
    Except String (List (String × String) × List Char)
  | 0, _, _ => .error "unterminated tag"
  | fuel + 1, cs, acc =>
    match cs.dropWhile isWsChar with
    | [] => .error "unterminated tag"
    | c :: cs' =>
      if c = '>' || c = '/' then .ok (acc.reverse, c :: cs')
      else
        match readName (c :: cs') with
        | none => .error "expected attribute name"
        | some (nm, cs1) =>
          match cs1.dropWhile isWsChar with
          | '=' :: cs3 =>
            (match cs3.dropWhile isWsChar with
             | q :: cs5 =>
               if q = '\x22' || q = '\x27' then
                 match readAttrValue fuel q cs5 [] with
                 | .ok (v, cs6) => readAttrs fuel cs6 ((nm, v) :: acc)
                 | .error e => .error e
               else .error "expected quoted attribute value"
             | [] => .error "expected attribute value")
          | _ => .error "expected = after attribute name"

/-- Read character data up to the next `<`, decoding entities. -/
def readText : Nat → List Char → List Char → Except String (String × List Char)
  | 0, _, _ => .error "input too long"
  | _ + 1, [], acc => .ok (⟨acc.reverse⟩, [])
  | _ + 1, '<' :: r, acc => .ok (⟨acc.reverse⟩, '<' :: r)
  | fuel + 1, '&' :: r, acc =>
    (match readEntity r with
     | some (d, r') => readText fuel r' (d :: acc)
     | none => .error "invalid entity reference")
  | fuel + 1, c :: r, acc => readText fuel r (c :: acc)

mutual
/-- Parse a sequence of child nodes, stopping at `</` or end of input. -/
def parseNodes : Nat → List Char → Except String (List XNode × List Char)
  | 0, _ => .error "input too long"
  | fuel + 1, cs =>
    match cs with
    | [] => .ok ([], [])
    | '<' :: '/' :: r => .ok ([], '<' :: '/' :: r)
    | '<' :: '!' :: '-' :: '-' :: r =>
      (match readComment fuel r [] with
       | .error e => .error e
       | .ok (txt, r') =>
         match parseNodes fuel r' with
         | .error e => .error e
         | .ok (ns, rest) => .ok (.comment txt :: ns, rest))
    | '<' :: '!' :: _ => .error "unsupported markup declaration"
    | '<' :: '?' :: _ => .error "unsupported processing instruction"
    | '<' :: r =>
      (match parseElementAfterLt fuel r with
       | .error e => .error e
       | .ok (el, r') =>
         match parseNodes fuel r' with
         | .error e => .error e
         | .ok (ns, rest) => .ok (el :: ns, rest))
    | _ =>
      match readText fuel cs [] with
      | .error e => .error e
      | .ok (txt, r') =>
        match parseNodes fuel r' with
        | .error e => .error e
        | .ok (ns, rest) => .ok (.text txt :: ns, rest)

/-- Parse one element, the input starting right after its opening `<`. -/
def parseElementAfterLt : Nat → List Char → Except String (XNode × List Char)
  | 0, _ => .error "input too long"
  | fuel + 1, cs =>
    match readName cs with
    | none => .error "expected element name"
    | some (tag, cs1) =>
      match readAttrs fuel cs1 [] with
      | .error e => .error e
      | .ok (attrs, cs2) =>
        match cs2 with
        | '/' :: '>' :: r => .ok (.element tag attrs [], r)
        | '>' :: r =>
          (match parseNodes fuel r with
           | .error e => .error e
           | .ok (children, r1) =>
             match r1 with
             | '<' :: '/' :: r2 =>
               (match readName r2 with
                | none => .error "expected closing tag name"
                | some (tag2, r3) =>
                  if tag2 = tag then
                    match r3.dropWhile isWsChar with
                    | '>' :: r4 => .ok (.element tag attrs children, r4)
                    | _ => .error "malformed closing tag"
                  else .error ("mismatched closing tag: " ++ tag2))
             | _ => .error ("unclosed element: " ++ tag))
        | _ => .error "malformed tag"
end

/-- Skip whitespace and comments around the document element. -/
def skipMisc : Nat → List Char → Except String (List Char)
  | 0, _ => .error "input too long"
  | fuel + 1, cs =>
    match cs.dropWhile isWsChar with
    | '<' :: '!' :: '-' :: '-' :: r =>
      (match readComment fuel r [] with
       | .error e => .error e
       | .ok (_, r') => skipMisc fuel r')
    | cs' => .ok cs'

/-- Modelled from the spec: the `DOMParser` of `parseFromString(_, 'text/xml')`,
which is a browser builtin absent from the repository.  Returns the document
element of a well-formed input, or a diagnostic. -/
def parseXml (s : String) : Except String XNode :=
  let fuel := s.data.length * 2 + 16
  match skipMisc fuel s.data with
  | .error e => .error e
  | .ok cs =>
    match cs with
    | '<' :: r =>
      (match parseElementAfterLt fuel r with
       | .error e => .error e
       | .ok (root, rest) =>
         match skipMisc fuel rest with
         | .error e => .error e
         | .ok [] => .ok root
         | .ok _ => .error "content after document element")
    | _ => .error "expected document element"

/-! ## Top-level entry points -/

/-- `parseProblem`: fails with the `XML Parse Error: ...` message when the
underlying parse reports an error (or the document contains a
`parsererror` element), with `No <problem> element found` when no
`problem` element exists, and otherwise assembles the parsed document. -/
def parseProblem (xmlString : String) : Except String ParsedProblem :=
  match parseXml xmlString with
  | .error d => .error ("XML Parse Error: " ++ d)
  | .ok root =>
    match docQuerySelectorTag root "parsererror" with
    | some parseError => .error ("XML Parse Error: " ++ textContent parseError)
    | none =>
      match docQuerySelectorTag root "problem" with
      | none => .error "No <problem> element found"
      | some problemEl =>
        let r := walkChildren (elementChildren problemEl) false
        .ok { metadata := parseMetadata problemEl
              introHtml := r.1
              blocks := r.2 }

/-- `formatXmlPreserveInline`: returns the input unchanged when it does not
parse, otherwise formats the document element at indent 0. -/
def formatXmlPreserveInline (xml : String) (indentSize : Nat := 2) : String :=
  let padding := strRepeat " " indentSize
  match parseXml xml with
  | .error _ => xml
  | .ok root =>
    match docQuerySelectorTag root "parsererror" with
    | some _ => xml
    | none => formatNode padding root 0

/-! ## Specification-side helper definitions used by the statements -/

/-- Whether an element child is question-producing. -/
def isQuestionTagEl (c : XNode) : Bool :=
  lcTag c == "multiplechoiceresponse" || lcTag c == "numericalresponse"
    || lcTag c == "stringresponse"

/-- The question blocks of a block list, in order. -/
def questionBlocks (bs : List ProblemBlock) : List (Question × Option Solution) :=
  bs.filterMap (fun b =>
    match b with
    | .questionBlock q sol => some (q, sol)
    | .htmlBlock _ => none)

/-- The contents of the content (html) blocks of a block list, in order. -/
def htmlContents (bs : List ProblemBlock) : List String :=
  bs.filterMap (fun b =>
    match b with
    | .questionBlock _ _ => none
    | .htmlBlock c => some c)

/-- The inner markup of the content-producing (html) elements of a child
list, in order. -/
def htmlInner (cs : List XNode) : List String :=
  (cs.filter (fun c => lcTag c == "html")).map innerHTML

def strConcat : List String → String
  | [] => ""
  | s :: r => s ++ strConcat r

/-- Remove every whitespace character (to state that two strings differ
by more than whitespace). -/
def stripWs (s : String) : String :=
  ⟨s.data.filter (fun c => !isWsChar c)⟩

def introOf : Except String ParsedProblem → Option String
  | .ok p => some p.introHtml
  | .error _ => none

def maxAttemptsOf : Except String ParsedProblem → Option (Option JsNum)
  | .ok p => some p.metadata.maxAttempts
  | .error _ => none

/-- The trimmed texts of the direct paragraph-level children of an element
(the reading of the claim under test for explanation extraction). -/
def directParagraphTexts (e : XNode) : List String :=
  ((elementChildren e).filter (fun c => tagOf c == "p")).map
    (fun p => strTrim (textContent p))

/-- Drop the leading paragraph text when it is exactly "Explanation". -/
def dropHeader : List String → List String
  | [] => []
  | hd :: tl => if hd = "Explanation" then tl else hd :: tl

/-- The amended description of explanation extraction, following the spec's
words with "direct paragraph-level child" read as "paragraph-level
descendant in document order": collect the trimmed text of every
paragraph-level descendant of the marker element, drop a leading
"Explanation" header, join with newlines; without a marker element use the
whole element's serialized inner markup and full trimmed text. -/
def describedSolution (el : XNode) : Solution :=
  match elQuerySelectorClass el "detailed-solution" with
  | some marker =>
    { explanation :=
        joinNL (dropHeader ((elQuerySelectorAllTag marker "p").map
          (fun p => strTrim (textContent p))))
      htmlContent := innerHTML marker }
  | none =>
    { explanation := strTrim (textContent el)
      htmlContent := innerHTML el }

/-! ## Concrete inputs used by the counterexamples and witnesses -/

/-- An html block whose text decodes to a valid entity reference. -/
def entityHtmlInput : String :=
  "<problem><html>a &amp;amp; b</html></problem>"

/-- A document whose text decodes to a valid entity reference. -/
def entityTextInput : String :=
  "<problem>a &amp;amp; b</problem>"

/-- A root with a non-numeric `max_attempts` attribute. -/
def nonNumericAttemptsInput : String :=
  "<problem max_attempts=\x22abc\x22></problem>"

/-- The marker element of the nested-paragraph solution example. -/
def nestedMarkerEl : XNode :=
  .element "div" [("class", "detailed-solution")]
    [.element "div" [] [.element "p" [] [.text "deep"]]]

/-- A solution whose only paragraph is not a direct child of the marker. -/
def nestedSolutionEl : XNode :=
  .element "solution" [] [nestedMarkerEl]

/-- A bare multiple-choice element (for instantiating pairing lemmas). -/
def mcqElW : XNode := .element "multiplechoiceresponse" [] []

/-- A bare solution element (for instantiating pairing lemmas). -/
def solElW : XNode := .element "solution" [] []

/-- A parsed document with one multiple-choice question and no correct
choice. -/
def noCorrectDoc : ParsedProblem :=
  { metadata := { displayName := "T", maxAttempts := none, markdown := none }
    introHtml := ""
    blocks := [.questionBlock (.multiplechoice "Q" [{ text := "A", correct := false }] false) none] }

/-- A parsed document with one question whose explanation is the literal
placeholder. -/
def placeholderDoc : ParsedProblem :=
  { metadata := { displayName := "T", maxAttempts := none, markdown := none }
    introHtml := ""
    blocks := [.questionBlock (.multiplechoice "Q" [{ text := "A", correct := true }] false)
                 (some { explanation := "Add your explanation here", htmlContent := "x" })] }

/-- A root element with an explicitly empty `display_name`. -/
def emptyNameEl : XNode := .element "problem" [("display_name", "")] []

/-- A root element with no `display_name` attribute. -/
def noNameEl : XNode := .element "problem" [] []

/-- The no-correct-answer error finding for question index `j`. -/
def noCorrectErr (j : Nat) : ValidationError :=
  { type := .error
    message := "Question " ++ Nat.repr j ++ " has no correct answer"
    questionIndex := some j }

/-- The missing-explanation warning finding for question index `j`. -/
def missingExplWarn (j : Nat) : ValidationError :=
  { type := .warning
    message := "Question " ++ Nat.repr j ++ " is missing an explanation"
    questionIndex := some j }

/-! ## Supporting lemmas -/

theorem solutionTexts_eq_dropHeader (ps : List XNode) :
    solutionTexts ps = dropHeader (ps.map (fun p => strTrim (textContent p))) := by
  cases ps <;> simp [solutionTexts, dropHeader]

theorem htmlContents_cons_qb (q : Question) (sol : Option Solution) (l : List ProblemBlock) :
    htmlContents (.questionBlock q sol :: l) = htmlContents l := by
  simp [htmlContents]

theorem htmlContents_cons_hb (x : String) (l : List ProblemBlock) :
    htmlContents (.htmlBlock x :: l) = x :: htmlContents l := by
  simp [htmlContents]

theorem htmlInner_cons_html (c : XNode) (l : List XNode) (h : lcTag c = "html") :
    htmlInner (c :: l) = innerHTML c :: htmlInner l := by
  simp [htmlInner, h]

theorem htmlInner_cons_not (c : XNode) (l : List XNode) (h : ¬ lcTag c = "html") :
    htmlInner (c :: l) = htmlInner l := by
  simp [htmlInner, h]

/-- After the first question has been found, the walk adds nothing to the
intro markup and turns exactly the html children into content blocks. -/
theorem walk_found_state : ∀ (n : Nat) (cs : List XNode), cs.length ≤ n →
    (walkChildren cs true).1 = "" ∧ htmlContents (walkChildren cs true).2 = htmlInner cs := by
  intro n
  induction n with
  | zero =>
    intro cs h
    have : cs = [] := List.eq_nil_of_length_eq_zero (Nat.le_zero.mp h)
    subst this
    simp [walkChildren, htmlContents, htmlInner]
  | succ n ih =>
    intro cs h
    match cs with
    | [] => simp [walkChildren, htmlContents, htmlInner]
    | [c] =>
      by_cases h1 : lcTag c = "html"
      · simp [walkChildren, h1, parseHtmlBlock, htmlContents_cons_hb,
          htmlInner_cons_html c [] h1, htmlContents, htmlInner]
      · by_cases h2 : lcTag c = "multiplechoiceresponse"
        · simp [walkChildren, h1, h2, htmlContents_cons_qb, htmlInner_cons_not c [] h1,
            htmlContents, htmlInner]
        · by_cases h3 : lcTag c = "numericalresponse"
          · simp [walkChildren, h1, h2, h3, htmlContents_cons_qb, htmlInner_cons_not c [] h1,
              htmlContents, htmlInner]
          · by_cases h4 : lcTag c = "stringresponse"
            · simp [walkChildren, h1, h2, h3, h4, htmlContents_cons_qb,
                htmlInner_cons_not c [] h1, htmlContents, htmlInner]
            · simp [walkChildren, h1, h2, h3, h4, htmlInner_cons_not c [] h1,
                htmlContents, htmlInner]
    | c :: s :: rest' =>
      have hr : (s :: rest').length ≤ n := by
        simp only [List.length_cons] at h ⊢; omega
      have hr' : rest'.length ≤ n := by
        simp only [List.length_cons] at h; omega
      by_cases h1 : lcTag c = "html"
      · have := ih (s :: rest') hr
        simp [walkChildren, h1, parseHtmlBlock, htmlContents_cons_hb,
          htmlInner_cons_html c (s :: rest') h1, this.1, this.2]
      · by_cases h2 : lcTag c = "multiplechoiceresponse"
        · by_cases hs : lcTag s = "solution"
          · have := ih rest' hr'
            have hsh : ¬ lcTag s = "html" := by rw [hs]; decide
            simp [walkChildren, h1, h2, hs, htmlContents_cons_qb,
              htmlInner_cons_not c (s :: rest') h1, htmlInner_cons_not s rest' hsh,
              this.1, this.2]
          · have := ih (s :: rest') hr
            simp [walkChildren, h1, h2, hs, htmlContents_cons_qb,
              htmlInner_cons_not c (s :: rest') h1, this.1, this.2]
        · by_cases h3 : lcTag c = "numericalresponse"
          · by_cases hs : lcTag s = "solution"
            · have := ih rest' hr'
              have hsh : ¬ lcTag s = "html" := by rw [hs]; decide
              simp [walkChildren, h1, h2, h3, hs, htmlContents_cons_qb,
                htmlInner_cons_not c (s :: rest') h1, htmlInner_cons_not s rest' hsh,
                this.1, this.2]
            · have := ih (s :: rest') hr
              simp [walkChildren, h1, h2, h3, hs, htmlContents_cons_qb,
                htmlInner_cons_not c (s :: rest') h1, this.1, this.2]
          · by_cases h4 : lcTag c = "stringresponse"
            · by_cases hs : lcTag s = "solution"
              · have := ih rest' hr'
                have hsh : ¬ lcTag s = "html" := by rw [hs]; decide
                simp [walkChildren, h1, h2, h3, h4, hs, htmlContents_cons_qb,
                  htmlInner_cons_not c (s :: rest') h1, htmlInner_cons_not s rest' hsh,
                  this.1, this.2]
              · have := ih (s :: rest') hr
                simp [walkChildren, h1, h2, h3, h4, hs, htmlContents_cons_qb,
                  htmlInner_cons_not c (s :: rest') h1, this.1, this.2]
            · have := ih (s :: rest') hr
              simp [walkChildren, h1, h2, h3, h4,
                htmlInner_cons_not c (s :: rest') h1, this.1, this.2]

theorem validateBlock_mem_index (j : Nat) (q : Question) (sol : Option Solution) :
    ∀ e ∈ validateBlock j q sol, e.questionIndex = some j := by
  intro e he
  cases q <;> unfold validateBlock at he <;>
    simp only [List.mem_append, List.mem_singleton, List.not_mem_nil, false_or,
      or_false] at he <;>
    (try split_ifs at he) <;>
    (try simp only [List.mem_singleton, List.not_mem_nil, false_or, or_false] at he) <;>
    rcases he with ((rfl | rfl) | rfl) <;> rfl

theorem validateBlocks_mem_index :
    ∀ (bs : List ProblemBlock) (qi : Nat) (e : ValidationError),
      e ∈ validateBlocks bs qi → ∃ j, e.questionIndex = some j ∧ qi < j := by
  intro bs
  induction bs with
  | nil =>
    intro qi e he
    simp [validateBlocks] at he
  | cons b rest ih =>
    intro qi e he
    cases b with
    | htmlBlock x => exact ih qi e (by simpa [validateBlocks] using he)
    | questionBlock q sol =>
      rw [validateBlocks] at he
      rcases List.mem_append.mp he with h | h
      · exact ⟨qi + 1, validateBlock_mem_index _ _ _ e h, Nat.lt_succ_self qi⟩
      · obtain ⟨j, hj, hlt⟩ := ih (qi + 1) e h
        exact ⟨j, hj, by omega⟩

/-- The findings carrying question index `qi + n + 1` are exactly those of
the `n`-th question block (0-based) of the walked list. -/
theorem validateBlocks_filter_at :
    ∀ (bs : List ProblemBlock) (qi n : Nat) (q : Question) (sol : Option Solution),
      (questionBlocks bs)[n]? = some (q, sol) →
      (validateBlocks bs qi).filter (fun e => decide (e.questionIndex = some (qi + n + 1)))
        = validateBlock (qi + n + 1) q sol := by
  intro bs
  induction bs with
  | nil =>
    intro qi n q sol hb
    simp [questionBlocks] at hb
  | cons b rest ih =>
    intro qi n q sol hb
    cases b with
    | htmlBlock x =>
      have hq : questionBlocks (ProblemBlock.htmlBlock x :: rest) = questionBlocks rest := by
        simp [questionBlocks]
      rw [hq] at hb
      simpa [validateBlocks] using ih qi n q sol hb
    | questionBlock q0 s0 =>
      have hq : questionBlocks (ProblemBlock.questionBlock q0 s0 :: rest)
          = (q0, s0) :: questionBlocks rest := by
        simp [questionBlocks]
      rw [hq] at hb
      cases n with
      | zero =>
        simp only [List.getElem?_cons_zero, Option.some_inj, Prod.mk.injEq] at hb
        obtain ⟨rfl, rfl⟩ := hb
        rw [validateBlocks, List.filter_append]
        have hA : (validateBlock (qi + 1) q0 s0).filter
            (fun e => decide (e.questionIndex = some (qi + 0 + 1))) = validateBlock (qi + 1) q0 s0 := by
          apply List.filter_eq_self.mpr
          intro a ha
          simp [validateBlock_mem_index _ _ _ a ha]
        have hB : (validateBlocks rest (qi + 1)).filter
            (fun e => decide (e.questionIndex = some (qi + 0 + 1))) = [] := by
          rw [List.filter_eq_nil_iff]
          intro a ha
          obtain ⟨j, hj, hlt⟩ := validateBlocks_mem_index rest (qi + 1) a ha
          rw [hj]
          simp only [decide_eq_true_eq, Option.some_inj]
          omega
        rw [hA, hB, List.append_nil]
      | succ n' =>
        simp only [List.getElem?_cons_succ] at hb
        rw [validateBlocks, List.filter_append]
        have hA : (validateBlock (qi + 1) q0 s0).filter
            (fun e => decide (e.questionIndex = some (qi + (n' + 1) + 1))) = [] := by
          rw [List.filter_eq_nil_iff]
          intro a ha
          have := validateBlock_mem_index _ _ _ a ha
          rw [this]
          simp only [decide_eq_true_eq, Option.some_inj]
          omega
        have hB := ih (qi + 1) n' q sol hb
        have harith : qi + 1 + n' + 1 = qi + (n' + 1) + 1 := by omega
        rw [harith] at hB
        rw [hA, hB, List.nil_append]

theorem empty_choice_msg_ne_missing (r : String) :
    ¬ ("Question " ++ r ++ " has empty choice(s)"
        = "Question " ++ r ++ " is missing an explanation") := by
  intro h
  have h2 := congrArg String.length h
  simp only [String.length_append] at h2
  have e1 : (" has empty choice(s)" : String).length = 20 := rfl
  have e2 : (" is missing an explanation" : String).length = 26 := rfl
  omega

/-- The missing-explanation condition, as a proposition. -/
theorem missingExplB_iff (sol : Option Solution) :
    missingExplB sol = true
  ↔ (sol = none ∨ ∃ s, sol = some s ∧
      (strTrim s.explanation = "" ∨ s.explanation = "Add your explanation here")) := by
  cases sol <;> simp [missingExplB]

/-- The error-kind findings of a multiple-choice block are exactly the
no-correct-answer error, present iff no choice is correct. -/
theorem validateBlock_errors (j : Nat) (label : String) (choices : List Choice)
    (shuffle : Bool) (sol : Option Solution) :
    (validateBlock j (.multiplechoice label choices shuffle) sol).filter
        (fun e => decide (e.type = VKind.error))
      = if choices.any (fun c => c.correct) then [] else [noCorrectErr j] := by
  unfold validateBlock
  by_cases hc : choices.any (fun c => c.correct) = true <;>
    by_cases hl : 0 < (List.filter (fun c => decide (strTrim c.text = "")) choices).length <;>
    by_cases hm : missingExplB sol = true <;>
    simp [hc, hl, hm, List.filter_append, noCorrectErr]

/-- A question-producing head makes the walk ignore the incoming
`foundFirstQuestion` flag (both branches continue with it set). -/
theorem walk_question_head_found_irrel (c : XNode) (rest : List XNode)
    (hq : isQuestionTagEl c = true) (found : Bool) :
    walkChildren (c :: rest) found = walkChildren (c :: rest) true := by
  simp only [isQuestionTagEl, Bool.or_eq_true, beq_iff_eq] at hq
  rcases hq with (h | h) | h <;> cases rest <;> simp [walkChildren, h]

/-! ## Claim theorems -/

/-- C1: the pretty-printer is not content-preserving on the parsed model:
on `entityHtmlInput` (where it is well-formedness-preserving, as both
parses succeed) the intro markup changes from "a &amp;amp; b" to
"a &amp; b" — a difference that survives deleting all whitespace, because
the formatter emits decoded text without re-escaping it. -/
theorem format_changes_parsed_model :
    introOf (parseProblem entityHtmlInput) = some "a &amp;amp; b"
  ∧ introOf (parseProblem (formatXmlPreserveInline entityHtmlInput 2)) = some "a &amp; b"
  ∧ stripWs "a &amp;amp; b" ≠ stripWs "a &amp; b" := by decide

/-- C2: the pretty-printer is not idempotent: formatting
`<problem>a &amp;amp; b</problem>` yields `<problem>a &amp; b</problem>`,
and formatting that again decodes the entity once more, yielding
`<problem>a & b</problem>`. -/
theorem format_not_idempotent_on_entity_text :
    formatXmlPreserveInline entityTextInput 2 = "<problem>a &amp; b</problem>"
  ∧ formatXmlPreserveInline (formatXmlPreserveInline entityTextInput 2) 2
      = "<problem>a & b</problem>"
  ∧ formatXmlPreserveInline (formatXmlPreserveInline entityTextInput 2) 2
      ≠ formatXmlPreserveInline entityTextInput 2 := by decide

/-- C4 (counterexample): a non-numeric `max_attempts` value such as "abc"
does not yield `maxAttempts = null`: parsing succeeds and `maxAttempts`
is `NaN`. -/
theorem nonnumeric_max_attempts_is_nan_not_null :
    maxAttemptsOf (parseProblem nonNumericAttemptsInput) = some (some JsNum.nan)
  ∧ some JsNum.nan ≠ (none : Option JsNum) := by decide

/-- C4 (amended): a missing or empty `max_attempts` attribute yields
`maxAttempts = null`; a nonempty non-numeric value yields `NaN`, in both
cases without error. -/
theorem max_attempts_missing_null_nonnumeric_nan (e : XNode) :
    ((getAttr e "max_attempts" = none ∨ getAttr e "max_attempts" = some "") →
      (parseMetadata e).maxAttempts = none)
  ∧ (∀ v, getAttr e "max_attempts" = some v → v ≠ "" → parseIntB10 v = .nan →
      (parseMetadata e).maxAttempts = some JsNum.nan) := by
  constructor
  · rintro (h | h) <;> simp [parseMetadata, h]
  · intro v h hne hnan
    simp [parseMetadata, h, hne, hnan]

/-- C4 (witness): a root without the attribute gets `null`; a root with
`max_attempts="abc"` gets `NaN`. -/
theorem max_attempts_missing_null_nonnumeric_nan_witness :
    (parseMetadata noNameEl).maxAttempts = none
  ∧ (parseMetadata (XNode.element "problem" [("max_attempts", "abc")] [])).maxAttempts
      = some JsNum.nan :=
  ⟨(max_attempts_missing_null_nonnumeric_nan noNameEl).1 (Or.inl (by decide)),
   (max_attempts_missing_null_nonnumeric_nan
      (XNode.element "problem" [("max_attempts", "abc")] [])).2 "abc"
     (by decide) (by decide) (by decide)⟩

/-- C8 (counterexample): `parseSolution` collects paragraphs that are not
direct children of the detailed-solution marker: on `nestedSolutionEl` the
explanation is "deep" although the marker has no direct paragraph child,
so the direct-children reading (which would give "") is false. -/
theorem parseSolution_collects_nested_paragraph :
    (parseSolution nestedSolutionEl).explanation = "deep"
  ∧ joinNL (dropHeader (directParagraphTexts nestedMarkerEl)) = ""
  ∧ ("deep" : String) ≠ "" := by decide

/-- C8 (amended): `parseSolution` agrees everywhere with the spec's
description once "direct paragraph-level child" is read as
"paragraph-level descendant in document order". -/
theorem parseSolution_matches_descendant_description (el : XNode) :
    parseSolution el = describedSolution el := by
  unfold parseSolution describedSolution
  cases h : elQuerySelectorClass el "detailed-solution" <;>
    simp [solutionTexts_eq_dropHeader]

/-- C9: on input the underlying markup parser rejects, the formatter
returns the original string unchanged and `parseProblem` fails with the
markup-syntax error carrying the parser diagnostic, producing no
document. -/
theorem malformed_input_format_identity_parse_error
    (s : String) (d : String) (indentSize : Nat) (h : parseXml s = .error d) :
    formatXmlPreserveInline s indentSize = s
  ∧ parseProblem s = .error ("XML Parse Error: " ++ d) := by
  constructor
  · simp [formatXmlPreserveInline, h]
  · simp [parseProblem, h]

/-- C9 (witness): the unclosed-tag input `<problem>`. -/
theorem malformed_input_format_identity_parse_error_witness :
    formatXmlPreserveInline "<problem>" 2 = "<problem>"
  ∧ parseProblem "<problem>" = .error ("XML Parse Error: " ++ "unclosed element: problem") :=
  malformed_input_format_identity_parse_error "<problem>" "unclosed element: problem" 2 rfl

/-- C5: a content-producing (html) child before the first
question-producing child contributes its inner markup to `introHtml` and
yields no block; every content-producing child from the first question on
becomes a content block (and contributes nothing to the intro): the intro
markup is exactly the concatenated inner markup of the html children
before the first question, the content blocks are exactly the html
children from the first question on, and all blocks arise from that
suffix. -/
theorem intro_html_before_first_question (cs : List XNode) :
    (walkChildren cs false).1
      = strConcat (htmlInner (cs.takeWhile (fun c => !isQuestionTagEl c)))
  ∧ htmlContents (walkChildren cs false).2
      = htmlInner (cs.dropWhile (fun c => !isQuestionTagEl c))
  ∧ (walkChildren cs false).2
      = (walkChildren (cs.dropWhile (fun c => !isQuestionTagEl c)) false).2 := by
  induction cs with
  | nil => simp [walkChildren, htmlContents, htmlInner, strConcat]
  | cons c rest ih =>
    by_cases h1 : lcTag c = "html"
    · have hq : isQuestionTagEl c = false := by simp [isQuestionTagEl, h1]
      cases rest with
      | nil =>
        simp [walkChildren, h1, hq, htmlInner_cons_html c _ h1, htmlInner, htmlContents,
          strConcat, String.append_empty]
      | cons s rest' =>
        have hw : walkChildren (c :: s :: rest') false
            = (innerHTML c ++ (walkChildren (s :: rest') false).1,
               (walkChildren (s :: rest') false).2) := by
          simp [walkChildren, h1]
        have ht : (c :: s :: rest').takeWhile (fun c => !isQuestionTagEl c)
            = c :: (s :: rest').takeWhile (fun c => !isQuestionTagEl c) := by
          simp [List.takeWhile_cons, hq]
        have hd : (c :: s :: rest').dropWhile (fun c => !isQuestionTagEl c)
            = (s :: rest').dropWhile (fun c => !isQuestionTagEl c) := by
          simp [List.dropWhile_cons, hq]
        refine ⟨?_, ?_, ?_⟩
        · rw [hw, ht, htmlInner_cons_html c _ h1]
          simp [strConcat, ih.1]
        · rw [hw, hd]
          exact ih.2.1
        · rw [hw, hd]
          exact ih.2.2
    · by_cases hqel : isQuestionTagEl c = true
      · have hfi := walk_question_head_found_irrel c rest hqel false
        have hfs := walk_found_state (c :: rest).length (c :: rest) le_rfl
        refine ⟨?_, ?_, ?_⟩
        · rw [hfi, hfs.1]
          simp [List.takeWhile_cons, hqel, strConcat, htmlInner]
        · rw [hfi, hfs.2]
          simp [List.dropWhile_cons, hqel]
        · simp [List.dropWhile_cons, hqel]
      · have hq : isQuestionTagEl c = false := Bool.not_eq_true _ ▸ hqel
        have h2 : ¬ lcTag c = "multiplechoiceresponse" := by
          intro h; exact hqel (by simp [isQuestionTagEl, h])
        have h3 : ¬ lcTag c = "numericalresponse" := by
          intro h; exact hqel (by simp [isQuestionTagEl, h])
        have h4 : ¬ lcTag c = "stringresponse" := by
          intro h; exact hqel (by simp [isQuestionTagEl, h])
        have hwalk : walkChildren (c :: rest) false = walkChildren rest false := by
          cases rest <;> simp [walkChildren, h1, h2, h3, h4]
        have ht : (c :: rest).takeWhile (fun c => !isQuestionTagEl c)
            = c :: rest.takeWhile (fun c => !isQuestionTagEl c) := by
          simp [List.takeWhile_cons, hq]
        have hd : (c :: rest).dropWhile (fun c => !isQuestionTagEl c)
            = rest.dropWhile (fun c => !isQuestionTagEl c) := by
          simp [List.dropWhile_cons, hq]
        refine ⟨?_, ?_, ?_⟩
        · rw [hwalk, ht, htmlInner_cons_not c _ h1]
          exact ih.1
        · rw [hwalk, hd]
          exact ih.2.1
        · rw [hwalk, hd]
          exact ih.2.2

/-- C6: for a multiple-choice question block at 0-based position `n` among
the question blocks, `validateProblem` contains exactly one error-kind
finding carrying question index `n + 1` — the finding with message
"Question N has no correct answer" — iff no choice is correct, and no such
error when some choice is correct. -/
theorem no_correct_answer_error_exactly_once
    (p : ParsedProblem) (n : Nat) (label : String) (choices : List Choice)
    (shuffle : Bool) (sol : Option Solution)
    (hb : (questionBlocks p.blocks)[n]? = some (.multiplechoice label choices shuffle, sol)) :
    ((choices.any (fun c => c.correct)) = false →
      (validateProblem p).filter
          (fun e => decide (e.type = VKind.error ∧ e.questionIndex = some (n + 1)))
        = [noCorrectErr (n + 1)])
  ∧ ((choices.any (fun c => c.correct)) = true →
      (validateProblem p).filter
          (fun e => decide (e.type = VKind.error ∧ e.questionIndex = some (n + 1)))
        = []) := by
  have key := validateBlocks_filter_at p.blocks 0 n _ _ hb
  rw [Nat.zero_add] at key
  have split_eq : (validateProblem p).filter
      (fun e => decide (e.type = VKind.error ∧ e.questionIndex = some (n + 1)))
      = ((validateBlocks p.blocks 0).filter
          (fun e => decide (e.questionIndex = some (n + 1)))).filter
            (fun e => decide (e.type = VKind.error)) := by
    rw [List.filter_filter]
    simp only [validateProblem, Bool.decide_and]
  rw [split_eq, key, validateBlock_errors]
  constructor
  · intro h
    rw [if_neg]
    simp [h]
  · intro h
    rw [if_pos h]

/-- C6 (witness): a document with one multiple-choice question and no
correct choice produces exactly the one error finding. -/
theorem no_correct_answer_error_exactly_once_witness :
    (validateProblem noCorrectDoc).filter
        (fun e => decide (e.type = VKind.error ∧ e.questionIndex = some (0 + 1)))
      = [noCorrectErr (0 + 1)] :=
  (no_correct_answer_error_exactly_once noCorrectDoc 0 "Q"
    [{ text := "A", correct := false }] false none (by decide)).1 (by decide)

/-- C7: for the question block at 0-based position `n` among the question
blocks, `validateProblem` contains the warning
"Question N is missing an explanation" with index `N = n + 1` iff the
block's solution is absent, or its explanation trims to the empty string,
or its explanation is exactly the literal "Add your explanation here". -/
theorem missing_explanation_warning_iff
    (p : ParsedProblem) (n : Nat) (q : Question) (sol : Option Solution)
    (hb : (questionBlocks p.blocks)[n]? = some (q, sol)) :
    missingExplWarn (n + 1) ∈ validateProblem p
  ↔ (sol = none ∨ ∃ s, sol = some s ∧
      (strTrim s.explanation = "" ∨ s.explanation = "Add your explanation here")) := by
  have key := validateBlocks_filter_at p.blocks 0 n _ _ hb
  rw [Nat.zero_add] at key
  constructor
  · intro hmem
    have hfil : missingExplWarn (n + 1)
        ∈ (validateBlocks p.blocks 0).filter
            (fun e => decide (e.questionIndex = some (n + 1))) :=
      List.mem_filter.mpr ⟨hmem, by simp [missingExplWarn]⟩
    rw [key] at hfil
    unfold validateBlock at hfil
    rcases List.mem_append.mp hfil with hL | hR
    · exfalso
      cases q with
      | multiplechoice label choices shuffle =>
        simp only [List.mem_append] at hL
        rcases hL with h | h
        · split_ifs at h <;> simp_all [missingExplWarn]
        · split_ifs at h <;> simp_all [missingExplWarn]
          exact empty_choice_msg_ne_missing (Nat.repr (n + 1)) (by simp_all)
      | numerical label answer tolerance => simp at hL
      | string label answer => simp at hL
    · split_ifs at hR with hc
      · exact (missingExplB_iff sol).mp hc
      · simp at hR
  · intro hcond
    have hmem2 : missingExplWarn (n + 1) ∈ validateBlock (n + 1) q sol := by
      unfold validateBlock
      apply List.mem_append.mpr
      right
      rw [if_pos ((missingExplB_iff sol).mpr hcond)]
      simp [missingExplWarn]
    have hfil := key ▸ hmem2
    exact (List.mem_filter.mp hfil).1

/-- C7 (witness): a question whose explanation is the literal placeholder
gets the missing-explanation warning. -/
theorem missing_explanation_warning_iff_witness :
    missingExplWarn (0 + 1) ∈ validateProblem placeholderDoc :=
  (missing_explanation_warning_iff placeholderDoc 0
      (.multiplechoice "Q" [{ text := "A", correct := true }] false)
      (some { explanation := "Add your explanation here", htmlContent := "x" })
      (by decide)).mpr
    (Or.inr ⟨{ explanation := "Add your explanation here", htmlContent := "x" }, rfl, Or.inr rfl⟩)

/-- C3: a solution element immediately preceded by a question-producing
element is consumed as that question's Explanation — the emitted block
carries `some (parseSolution s)` and the walk continues after the
solution, so it never becomes a standalone block; and a solution element
reached directly by the walk (not consumed by lookahead) is skipped: the
walk's result is exactly that of the remaining children, with no block
and no error. -/
theorem solution_lookahead_pairing_and_skip
    (c s : XNode) (rest : List XNode) (found : Bool) :
    (isQuestionTagEl c = true → lcTag s = "solution" →
      ∃ q, walkChildren (c :: s :: rest) found
        = ((walkChildren rest true).1,
           .questionBlock q (some (parseSolution s)) :: (walkChildren rest true).2))
  ∧ (lcTag s = "solution" → walkChildren (s :: rest) found = walkChildren rest found) := by
  constructor
  · intro hq hs
    simp only [isQuestionTagEl, Bool.or_eq_true, beq_iff_eq] at hq
    rcases hq with (h | h) | h
    · exact ⟨parseMultipleChoice c, by cases rest <;> simp [walkChildren, h, hs]⟩
    · exact ⟨.numerical (labelOf c) (answerAttrOf c) "",
        by cases rest <;> simp [walkChildren, h, hs]⟩
    · exact ⟨.string (labelOf c) (answerAttrOf c),
        by cases rest <;> simp [walkChildren, h, hs]⟩
  · intro hs
    cases rest <;> simp [walkChildren, hs]

/-- C3 (witness): a multiple-choice element followed by a solution element
is paired with it; a leading solution element is skipped. -/
theorem solution_lookahead_pairing_and_skip_witness :
    (∃ q, walkChildren [mcqElW, solElW] false
        = ((walkChildren [] true).1,
           .questionBlock q (some (parseSolution solElW)) :: (walkChildren [] true).2))
  ∧ walkChildren [solElW] false = walkChildren [] false :=
  ⟨(solution_lookahead_pairing_and_skip mcqElW solElW [] false).1 (by decide) rfl,
   (solution_lookahead_pairing_and_skip mcqElW solElW [] false).2 rfl⟩

/-- C10: a root `problem` element whose `display_name` attribute is the
empty string yields `displayName = "Untitled Problem"` from `parseProblem`,
exactly as when the attribute is absent. -/
theorem empty_display_name_untitled
    (s : String) (root problemEl : XNode)
    (hx : parseXml s = .ok root)
    (hpe : docQuerySelectorTag root "parsererror" = none)
    (hp : docQuerySelectorTag root "problem" = some problemEl)
    (h : getAttr problemEl "display_name" = some ""
          ∨ getAttr problemEl "display_name" = none) :
    ∃ p, parseProblem s = .ok p ∧ p.metadata.displayName = "Untitled Problem" := by
  refine ⟨{ metadata := parseMetadata problemEl
            introHtml := (walkChildren (elementChildren problemEl) false).1
            blocks := (walkChildren (elementChildren problemEl) false).2 }, ?_, ?_⟩
  · simp [parseProblem, hx, hpe, hp]
  · rcases h with h | h <;> simp [parseMetadata, h]

/-- C10 (witness): concrete documents with an explicitly empty and an
absent `display_name`. -/
theorem empty_display_name_untitled_witness :
    (∃ p, parseProblem "<problem display_name=\x22\x22></problem>" = .ok p
        ∧ p.metadata.displayName = "Untitled Problem")
  ∧ (∃ p, parseProblem "<problem></problem>" = .ok p
        ∧ p.metadata.displayName = "Untitled Problem") :=
  ⟨empty_display_name_untitled _ emptyNameEl emptyNameEl rfl rfl rfl
     (Or.inl (by decide)),
   empty_display_name_untitled _ noNameEl noNameEl rfl rfl rfl
     (Or.inr (by decide))⟩

end MP
